import Mathlib

/-!
Verification of the SQLite session/event storage provider
(`SQLiteStorageProvider` in the repository source).

The store is embedded shallowly: the SQLite database content becomes an
explicit state record (`StoreState`); each provider method becomes a pure
state-passing function; `Date.now()` becomes an explicit `now : Nat`
argument; thrown errors become an `Except StoreError` result.  Event
payloads are modelled by the JSON-like value type `JsVal`, the code's
`JSON.stringify` / `JSON.parse` pair by the executable `jsonStringify` /
`jsonParse` below (quote and backslash escaping in strings; integers for
numbers), with a proved round-trip on the printer's image.
-/

/-- JSON-like values: the model of the opaque serializable event payloads
(`AgentEventStream.Event`) the store accepts. -/
inductive JsVal where
  | null : JsVal
  | bool (flag : Bool) : JsVal
  | num (value : Int) : JsVal
  | str (text : String) : JsVal
  | arr (items : List JsVal) : JsVal
  | obj (entries : List (String × JsVal)) : JsVal

/-- Decimal digits of `n`, least significant first. -/
def natDigitsRev (n : Nat) : List Char :=
  if h : n < 10 then [Char.ofNat (48 + n)]
  else Char.ofNat (48 + n % 10) :: natDigitsRev (n / 10)
decreasing_by exact Nat.div_lt_self (by omega) (by omega)

/-- Decimal printing of a natural number. -/
def printNatChars (n : Nat) : List Char :=
  (natDigitsRev n).reverse

/-- Decimal printing of an integer (model of JS number serialization,
restricted to integers). -/
def printIntChars (n : Int) : List Char :=
  if n < 0 then '-' :: printNatChars n.natAbs else printNatChars n.toNat

/-- Escape one character the way the modelled serializer does: quote and
backslash get a backslash prefix, everything else is kept verbatim. -/
def escapeChar (c : Char) : List Char :=
  if c = '"' ∨ c = '\\' then ['\\', c] else [c]

/-- Escape a whole string body. -/
def escapeChars (s : List Char) : List Char :=
  s.foldr (fun c acc => escapeChar c ++ acc) []

/-- Print a JSON string literal, quotes included. -/
def printStrChars (s : List Char) : List Char :=
  '"' :: escapeChars s ++ ['"']

mutual

/-- Serialize a `JsVal` value to characters (model of `JSON.stringify`). -/
def printJson : JsVal → List Char
  | .null => "null".data
  | .bool true => "true".data
  | .bool false => "false".data
  | .num n => printIntChars n
  | .str s => printStrChars s.data
  | .arr xs => '[' :: printElems xs
  | .obj fs => '\x7b' :: printFields fs

/-- Serialize array elements, closing bracket included. -/
def printElems : List JsVal → List Char
  | [] => [']']
  | [x] => printJson x ++ [']']
  | x :: xs => printJson x ++ ',' :: printElems xs

/-- Serialize object fields, closing brace included. -/
def printFields : List (String × JsVal) → List Char
  | [] => ['\x7d']
  | [(k, v)] => printStrChars k.data ++ ':' :: printJson v ++ ['\x7d']
  | (k, v) :: fs => printStrChars k.data ++ ':' :: printJson v ++ ',' :: printFields fs

end

/-- Read a string body up to the closing quote, undoing the escaping;
returns the body and the remaining input. -/
def parseStrBody : List Char → Option (List Char × List Char)
  | [] => none
  | c :: rest =>
    if c = '"' then some ([], rest)
    else if c = '\\' then
      match rest with
      | [] => none
      | d :: rest2 => (parseStrBody rest2).map (fun p => (d :: p.1, p.2))
    else (parseStrBody rest).map (fun p => (c :: p.1, p.2))

/-- Split a leading run of decimal digits from the input. -/
def digitSpan : List Char → List Char × List Char
  | [] => ([], [])
  | c :: rest =>
    if c.isDigit then
      let q := digitSpan rest
      (c :: q.1, q.2)
    else ([], c :: rest)

/-- Numeric value of a digit run (most significant first). -/
def natFromDigits (ds : List Char) : Nat :=
  ds.foldl (fun acc c => acc * 10 + (c.toNat - 48)) 0

mutual

/-- Parse one JSON value; fuel bounds the recursion depth
(model of `JSON.parse`, successful exactly on well-formed input). -/
def parseJson : Nat → List Char → Option (JsVal × List Char)
  | 0, _ => none
  | _ + 1, [] => none
  | fuel + 1, c :: rest =>
    if c = '"' then
      (parseStrBody rest).map (fun p => (.str (String.mk p.1), p.2))
    else if c = '[' then (parseElems fuel rest).map (fun p => (.arr p.1, p.2))
    else if c = '\x7b' then (parseFields fuel rest).map (fun p => (.obj p.1, p.2))
    else if c = '-' then
      match digitSpan rest with
      | ([], _) => none
      | (ds, r) => some (.num (-(natFromDigits ds : Int)), r)
    else if c.isDigit then
      match digitSpan (c :: rest) with
      | (ds, r) => some (.num (natFromDigits ds : Int), r)
    else
      match c :: rest with
      | 'n' :: 'u' :: 'l' :: 'l' :: r => some (.null, r)
      | 't' :: 'r' :: 'u' :: 'e' :: r => some (.bool true, r)
      | 'f' :: 'a' :: 'l' :: 's' :: 'e' :: r => some (.bool false, r)
      | _ => none

/-- Parse array elements after the opening bracket, consuming the
closing bracket. -/
def parseElems : Nat → List Char → Option (List JsVal × List Char)
  | 0, _ => none
  | fuel + 1, l =>
    if l.head? = some ']' then some ([], l.tail)
    else
      match parseJson fuel l with
      | some (v, ',' :: r) => (parseElems fuel r).map (fun p => (v :: p.1, p.2))
      | some (v, ']' :: r) => some ([v], r)
      | _ => none

/-- Parse object fields after the opening brace, consuming the
closing brace. -/
def parseFields : Nat → List Char → Option (List (String × JsVal) × List Char)
  | 0, _ => none
  | fuel + 1, l =>
    if l.head? = some '\x7d' then some ([], l.tail)
    else
      match l with
      | '"' :: rest =>
        match parseStrBody rest with
        | some (k, ':' :: r) =>
          match parseJson fuel r with
          | some (v, ',' :: r2) =>
            (parseFields fuel r2).map (fun p => ((String.mk k, v) :: p.1, p.2))
          | some (v, '\x7d' :: r2) => some ([(String.mk k, v)], r2)
          | _ => none
        | _ => none
      | _ => none

end

mutual

/-- Fuel adequate for parsing the printed form of a value. -/
def jsonFuel : JsVal → Nat
  | .null => 1
  | .bool _ => 1
  | .num _ => 1
  | .str _ => 1
  | .arr xs => 1 + elemsFuel xs
  | .obj fs => 1 + fieldsFuel fs

/-- Fuel adequate for parsing printed array elements. -/
def elemsFuel : List JsVal → Nat
  | [] => 1
  | x :: xs => 1 + max (jsonFuel x) (elemsFuel xs)

/-- Fuel adequate for parsing printed object fields. -/
def fieldsFuel : List (String × JsVal) → Nat
  | [] => 1
  | (_, v) :: fs => 1 + max (jsonFuel v) (fieldsFuel fs)

end

/-- Top-level serialization to `String` (model of `JSON.stringify`). -/
def jsonStringify (v : JsVal) : String :=
  String.mk (printJson v)

/-- Top-level parse of a whole string (model of `JSON.parse`; `none`
models a thrown `SyntaxError`). -/
def jsonParse (s : String) : Option JsVal :=
  match parseJson (s.data.length + 1) s.data with
  | some (v, []) => some v
  | _ => none

/-- Head-of-input digit test, used to delimit number parses. -/
def headDigit : List Char → Bool
  | [] => false
  | c :: _ => c.isDigit

/-- Value of a digit list, least significant first. -/
def valLE : List Char → Nat
  | [] => 0
  | c :: cs => (c.toNat - 48) + 10 * valLE cs

theorem digitChar_isDigit (k : Nat) (hk : k < 10) :
    (Char.ofNat (48 + k)).isDigit = true ∧ (Char.ofNat (48 + k)).toNat = 48 + k := by
  interval_cases k <;> exact ⟨by decide, by decide⟩

theorem natDigitsRev_isDigit (n : Nat) : ∀ c ∈ natDigitsRev n, c.isDigit = true := by
  induction n using natDigitsRev.induct with
  | case1 n h =>
    intro c hc
    rw [natDigitsRev, dif_pos h] at hc
    simp only [List.mem_singleton] at hc
    subst hc
    exact (digitChar_isDigit n h).1
  | case2 n h ih =>
    intro c hc
    rw [natDigitsRev, dif_neg h] at hc
    rcases List.mem_cons.mp hc with h1 | h2
    · subst h1
      exact (digitChar_isDigit (n % 10) (Nat.mod_lt n (by omega))).1
    · exact ih c h2

theorem valLE_natDigitsRev (n : Nat) : valLE (natDigitsRev n) = n := by
  induction n using natDigitsRev.induct with
  | case1 n h =>
    rw [natDigitsRev, dif_pos h]
    have := (digitChar_isDigit n h).2
    simp [valLE, this]
  | case2 n h ih =>
    rw [natDigitsRev, dif_neg h]
    have := (digitChar_isDigit (n % 10) (Nat.mod_lt n (by omega))).2
    simp only [valLE, this, ih]
    omega

theorem natFromDigits_reverse (l : List Char) : natFromDigits l.reverse = valLE l := by
  induction l with
  | nil => rfl
  | cons c cs ih =>
    simp only [List.reverse_cons, natFromDigits, List.foldl_append, List.foldl_cons,
      List.foldl_nil, valLE]
    simp only [natFromDigits] at ih
    rw [ih]
    omega

theorem natFromDigits_printNatChars (n : Nat) : natFromDigits (printNatChars n) = n := by
  rw [printNatChars, natFromDigits_reverse, valLE_natDigitsRev]

theorem printNatChars_ne_nil (n : Nat) : printNatChars n ≠ [] := by
  rw [printNatChars]
  intro h
  rw [List.reverse_eq_nil_iff] at h
  rw [natDigitsRev] at h
  by_cases hn : n < 10
  · rw [dif_pos hn] at h; exact List.cons_ne_nil _ _ h
  · rw [dif_neg hn] at h; exact List.cons_ne_nil _ _ h

theorem printNatChars_isDigit (n : Nat) : ∀ c ∈ printNatChars n, c.isDigit = true := by
  intro c hc
  rw [printNatChars, List.mem_reverse] at hc
  exact natDigitsRev_isDigit n c hc

theorem digitSpan_append (ds rest : List Char) (h1 : ∀ c ∈ ds, c.isDigit = true)
    (h2 : headDigit rest = false) : digitSpan (ds ++ rest) = (ds, rest) := by
  induction ds with
  | nil =>
    cases rest with
    | nil => rfl
    | cons c t =>
      simp only [headDigit] at h2
      simp [digitSpan, h2]
  | cons d ds ih =>
    have hd : d.isDigit = true := h1 d (List.mem_cons_self d ds)
    have ih2 := ih (fun c hc => h1 c (List.mem_cons_of_mem d hc))
    simp [digitSpan, hd, ih2]

theorem parseStrBody_escape (s rest : List Char) :
    parseStrBody (escapeChars s ++ '"' :: rest) = some (s, rest) := by
  induction s with
  | nil =>
    show parseStrBody ('"' :: rest) = _
    rw [parseStrBody.eq_def]
    simp
  | cons c cs ih =>
    show parseStrBody ((escapeChar c ++ escapeChars cs) ++ '"' :: rest) = _
    by_cases hc : c = '"' ∨ c = '\\'
    · simp only [escapeChar, if_pos hc, List.cons_append, List.nil_append]
      rw [parseStrBody.eq_def]
      simp [ih]
    · push_neg at hc
      simp only [escapeChar, if_neg (by tauto : ¬(c = '"' ∨ c = '\\')), List.cons_append,
        List.nil_append]
      rw [parseStrBody.eq_def]
      simp [hc.1, hc.2, ih]

theorem stringMk_data (s : String) : String.mk s.data = s := rfl

theorem jsonFuel_pos (v : JsVal) : 1 ≤ jsonFuel v := by
  cases v <;> simp only [jsonFuel] <;> omega

theorem elemsFuel_pos (xs : List JsVal) : 1 ≤ elemsFuel xs := by
  cases xs <;> simp only [elemsFuel] <;> omega

theorem fieldsFuel_pos (fs : List (String × JsVal)) : 1 ≤ fieldsFuel fs := by
  cases fs with
  | nil => simp [fieldsFuel]
  | cons f fs => obtain ⟨k, v⟩ := f; simp only [fieldsFuel]; omega

theorem isDigit_ne (c : Char) (hc : c.isDigit = true) :
    c ≠ '"' ∧ c ≠ '[' ∧ c ≠ '\x7b' ∧ c ≠ '-' := by
  refine ⟨?_, ?_, ?_, ?_⟩ <;> (rintro rfl; revert hc; decide)

theorem printJson_cons (v : JsVal) : ∃ c cs, printJson v = c :: cs ∧ c ≠ ']' := by
  cases v with
  | null => exact ⟨'n', _, rfl, by decide⟩
  | bool b =>
    cases b
    · exact ⟨'f', _, rfl, by decide⟩
    · exact ⟨'t', _, rfl, by decide⟩
  | num n =>
    by_cases hn : n < 0
    · exact ⟨'-', printNatChars n.natAbs, by simp [printJson, printIntChars, hn], by decide⟩
    · obtain ⟨c, cs, heq⟩ := List.exists_cons_of_ne_nil (printNatChars_ne_nil n.toNat)
      have hc := printNatChars_isDigit n.toNat c (heq ▸ List.mem_cons_self c cs)
      refine ⟨c, cs, by simp [printJson, printIntChars, hn, heq], ?_⟩
      rintro rfl
      exact absurd hc (by decide)
  | str s => exact ⟨'"', _, rfl, by decide⟩
  | arr xs => exact ⟨'[', _, rfl, by decide⟩
  | obj fs => exact ⟨'\x7b', _, rfl, by decide⟩

theorem printJson_length_pos (v : JsVal) : 1 ≤ (printJson v).length := by
  obtain ⟨c, cs, heq, -⟩ := printJson_cons v
  simp [heq]

theorem fuel_le_print (n : Nat) :
    (∀ v, jsonFuel v ≤ n → jsonFuel v ≤ (printJson v).length) ∧
    (∀ xs, elemsFuel xs ≤ n → elemsFuel xs ≤ (printElems xs).length) ∧
    (∀ fs, fieldsFuel fs ≤ n → fieldsFuel fs ≤ (printFields fs).length) := by
  induction n with
  | zero =>
    refine ⟨fun v h => ?_, fun xs h => ?_, fun fs h => ?_⟩
    · exact absurd h (by have := jsonFuel_pos v; omega)
    · exact absurd h (by have := elemsFuel_pos xs; omega)
    · exact absurd h (by have := fieldsFuel_pos fs; omega)
  | succ n ih =>
    refine ⟨fun v h => ?_, fun xs h => ?_, fun fs h => ?_⟩
    · cases v with
      | null => simp [jsonFuel, printJson]
      | bool b => cases b <;> simp [jsonFuel, printJson]
      | num m =>
        have := printJson_length_pos (.num m)
        simp only [jsonFuel]
        omega
      | str s =>
        have := printJson_length_pos (.str s)
        simp only [jsonFuel]
        omega
      | arr xs =>
        simp only [jsonFuel, printJson, List.length_cons]
        simp only [jsonFuel] at h
        have := ih.2.1 xs (by omega)
        omega
      | obj fs =>
        simp only [jsonFuel, printJson, List.length_cons]
        simp only [jsonFuel] at h
        have := ih.2.2 fs (by omega)
        omega
    · cases xs with
      | nil => simp [elemsFuel, printElems]
      | cons x xs =>
        simp only [elemsFuel] at h
        have hx := ih.1 x (by omega)
        have hxs := ih.2.1 xs (by omega)
        have hpx := printJson_length_pos x
        have hpxs : 1 ≤ (printElems xs).length := by
          cases xs with
          | nil => simp [printElems]
          | cons y ys =>
            have := printJson_length_pos y
            cases ys <;> simp [printElems] <;> omega
        cases xs with
        | nil =>
          simp only [printElems, List.length_append, List.length_cons, List.length_nil,
            elemsFuel]
          simp only [elemsFuel] at h ⊢
          omega
        | cons y ys =>
          simp only [printElems, List.length_append, List.length_cons, elemsFuel] at hxs ⊢
          omega
    · cases fs with
      | nil => simp [fieldsFuel, printFields]
      | cons f fs =>
        obtain ⟨k, v⟩ := f
        simp only [fieldsFuel] at h
        have hv := ih.1 v (by omega)
        have hfs := ih.2.2 fs (by omega)
        have hpv := printJson_length_pos v
        have hpfs : 1 ≤ (printFields fs).length := by
          cases fs with
          | nil => simp [printFields]
          | cons g gs =>
            obtain ⟨k2, v2⟩ := g
            have := printJson_length_pos v2
            cases gs <;> simp [printFields] <;> omega
        cases fs with
        | nil =>
          simp only [printFields, fieldsFuel, List.length_append, List.length_cons,
            printStrChars]
          simp only [fieldsFuel] at h ⊢
          omega
        | cons g gs =>
          simp only [printFields, fieldsFuel, List.length_append, List.length_cons,
            printStrChars] at hfs ⊢
          omega

theorem parse_print_aux (fuel : Nat) :
    (∀ v rest, jsonFuel v ≤ fuel → headDigit rest = false →
      parseJson fuel (printJson v ++ rest) = some (v, rest)) ∧
    (∀ xs rest, elemsFuel xs ≤ fuel →
      parseElems fuel (printElems xs ++ rest) = some (xs, rest)) ∧
    (∀ fs rest, fieldsFuel fs ≤ fuel →
      parseFields fuel (printFields fs ++ rest) = some (fs, rest)) := by
  induction fuel with
  | zero =>
    refine ⟨fun v rest h _ => absurd h (by have := jsonFuel_pos v; omega),
      fun xs rest h => absurd h (by have := elemsFuel_pos xs; omega),
      fun fs rest h => absurd h (by have := fieldsFuel_pos fs; omega)⟩
  | succ fuel ih =>
    obtain ⟨ihv, ihe, ihf⟩ := ih
    refine ⟨fun v rest hfuel hrest => ?_, fun xs rest hfuel => ?_, fun fs rest hfuel => ?_⟩
    · cases v with
      | null =>
        rw [show printJson .null ++ rest = 'n' :: 'u' :: 'l' :: 'l' :: rest from rfl]
        rw [parseJson.eq_def]
        simp
      | bool b =>
        cases b
        · rw [show printJson (.bool false) ++ rest =
              'f' :: 'a' :: 'l' :: 's' :: 'e' :: rest from rfl]
          rw [parseJson.eq_def]
          simp
        · rw [show printJson (.bool true) ++ rest = 't' :: 'r' :: 'u' :: 'e' :: rest from rfl]
          rw [parseJson.eq_def]
          simp
      | num m =>
        by_cases hm : m < 0
        · have hdig := printNatChars_isDigit m.natAbs
          have htake := digitSpan_append (printNatChars m.natAbs) rest hdig hrest
          obtain ⟨c, cs, heq⟩ := List.exists_cons_of_ne_nil (printNatChars_ne_nil m.natAbs)
          rw [show printJson (.num m) ++ rest = '-' :: (printNatChars m.natAbs ++ rest) by
            simp [printJson, printIntChars, hm]]
          rw [parseJson.eq_def]
          simp only [reduceIte, Char.isDigit]
          rw [htake, heq]
          have hval : natFromDigits (c :: cs) = m.natAbs := by
            rw [← heq, natFromDigits_printNatChars]
          simp [hval]
          rw [abs_of_neg hm, neg_neg]
        · obtain ⟨c, cs, heq⟩ := List.exists_cons_of_ne_nil (printNatChars_ne_nil m.toNat)
          have hc : c.isDigit = true :=
            printNatChars_isDigit m.toNat c (heq ▸ List.mem_cons_self c cs)
          obtain ⟨n1, n2, n3, n4⟩ := isDigit_ne c hc
          have hdig := printNatChars_isDigit m.toNat
          have htake := digitSpan_append (printNatChars m.toNat) rest hdig hrest
          rw [show printJson (.num m) ++ rest = c :: (cs ++ rest) by
            simp [printJson, printIntChars, hm, heq]]
          rw [parseJson.eq_def]
          simp only [n1, n2, n3, n4, hc, if_false, if_true, reduceIte]
          rw [show c :: (cs ++ rest) = printNatChars m.toNat ++ rest by simp [heq]]
          rw [htake]
          have hval : natFromDigits (printNatChars m.toNat) = m.toNat :=
            natFromDigits_printNatChars _
          simp [hval]
          omega
      | str s =>
        rw [show printJson (.str s) ++ rest = '"' :: (escapeChars s.data ++ '"' :: rest) by
          simp [printJson, printStrChars]]
        rw [parseJson.eq_def]
        simp [parseStrBody_escape, stringMk_data]
      | arr xs =>
        have he : elemsFuel xs ≤ fuel := by simp only [jsonFuel] at hfuel; omega
        rw [show printJson (.arr xs) ++ rest = '[' :: (printElems xs ++ rest) by
          simp [printJson]]
        rw [parseJson.eq_def]
        simp [ihe xs rest he]
      | obj fs =>
        have he : fieldsFuel fs ≤ fuel := by simp only [jsonFuel] at hfuel; omega
        rw [show printJson (.obj fs) ++ rest = '\x7b' :: (printFields fs ++ rest) by
          simp [printJson]]
        rw [parseJson.eq_def]
        simp [ihf fs rest he]
    · cases xs with
      | nil =>
        rw [show printElems [] ++ rest = ']' :: rest by simp [printElems]]
        rw [parseElems.eq_def]
        simp
      | cons x xs =>
        obtain ⟨c, cs, heq, hne⟩ := printJson_cons x
        simp only [elemsFuel] at hfuel
        have hx : jsonFuel x ≤ fuel := by omega
        cases xs with
        | nil =>
          have hp : parseJson fuel (c :: (cs ++ (']' :: rest))) = some (x, ']' :: rest) := by
            rw [← List.cons_append, ← heq]
            exact ihv x (']' :: rest) hx rfl
          rw [show printElems [x] ++ rest = c :: (cs ++ (']' :: rest)) by
            simp [printElems, heq]]
          rw [parseElems.eq_def]
          simp [hne, hp]
        | cons y ys =>
          have hys : elemsFuel (y :: ys) ≤ fuel := by omega
          have hrec := ihe (y :: ys) rest hys
          have hp : parseJson fuel (c :: (cs ++ (',' :: (printElems (y :: ys) ++ rest)))) =
              some (x, ',' :: (printElems (y :: ys) ++ rest)) := by
            rw [← List.cons_append, ← heq]
            exact ihv x _ hx rfl
          rw [show printElems (x :: y :: ys) ++ rest =
              c :: (cs ++ (',' :: (printElems (y :: ys) ++ rest))) by
            simp [printElems, heq]]
          rw [parseElems.eq_def]
          simp [hne, hp, hrec]
    · cases fs with
      | nil =>
        rw [show printFields [] ++ rest = '\x7d' :: rest by simp [printFields]]
        rw [parseFields.eq_def]
        simp
      | cons f fs =>
        obtain ⟨k, v⟩ := f
        simp only [fieldsFuel] at hfuel
        have hv : jsonFuel v ≤ fuel := by omega
        cases fs with
        | nil =>
          have hp : parseJson fuel (printJson v ++ ('\x7d' :: rest)) =
              some (v, '\x7d' :: rest) := ihv v _ hv rfl
          rw [show printFields [(k, v)] ++ rest =
              '"' :: (escapeChars k.data ++ '"' :: (':' :: (printJson v ++ ('\x7d' :: rest)))) by
            simp [printFields, printStrChars]]
          rw [parseFields.eq_def]
          simp [parseStrBody_escape, hp, stringMk_data]
        | cons g gs =>
          have hgs : fieldsFuel (g :: gs) ≤ fuel := by omega
          have hrec := ihf (g :: gs) rest hgs
          have hp : parseJson fuel (printJson v ++ (',' :: (printFields (g :: gs) ++ rest))) =
              some (v, ',' :: (printFields (g :: gs) ++ rest)) := ihv v _ hv rfl
          rw [show printFields ((k, v) :: g :: gs) ++ rest =
              '"' :: (escapeChars k.data ++ '"' ::
                (':' :: (printJson v ++ (',' :: (printFields (g :: gs) ++ rest))))) by
            simp [printFields, printStrChars]]
          rw [parseFields.eq_def]
          simp [parseStrBody_escape, hp, hrec, stringMk_data]

/-- Round-trip of the modelled serialization: parsing a stringified value
recovers it exactly. -/
theorem jsonParse_stringify (v : JsVal) : jsonParse (jsonStringify v) = some v := by
  have hfuel : jsonFuel v ≤ (printJson v).length + 1 := by
    have := (fuel_le_print (jsonFuel v)).1 v le_rfl
    omega
  have h := (parse_print_aux ((printJson v).length + 1)).1 v [] hfuel rfl
  rw [List.append_nil] at h
  unfold jsonParse jsonStringify
  rw [h]

theorem jsonStringify_inj {a b : JsVal} (h : jsonStringify a = jsonStringify b) : a = b := by
  have ha := jsonParse_stringify a
  rw [h, jsonParse_stringify b] at ha
  exact (Option.some_inj.mp ha).symm

instance : DecidableEq JsVal := fun a b =>
  decidable_of_iff (jsonStringify a = jsonStringify b)
    ⟨jsonStringify_inj, fun h => by rw [h]⟩

/-!
The store model.  The SQLite database file becomes `StoreState`: the two
tables as lists of rows in insertion order, plus the AUTOINCREMENT counter
of the events table and the provider's `initialized` flag.  Each method of
`SQLiteStorageProvider` becomes a state-passing function; `Date.now()` is
an explicit `now` argument; a thrown error is an `Except.error` paired
with the (unchanged) state.
-/

/-- Row of the `sessions` table (`SessionRow` in the source); `none`
models SQL NULL in the nullable `name` and `tags` columns. -/
structure SessionRow where
  id : String
  createdAt : Nat
  updatedAt : Nat
  name : Option String
  workingDirectory : String
  tags : Option String
deriving DecidableEq

/-- Row of the `events` table (`EventRow` in the source). -/
structure EventRow where
  id : Nat
  sessionId : String
  timestamp : Nat
  eventData : String
deriving DecidableEq

/-- Database content plus the provider's `initialized` flag.
`nextEventId` is the AUTOINCREMENT counter of `events.id`. -/
structure StoreState where
  initialized : Bool
  sessions : List SessionRow
  events : List EventRow
  nextEventId : Nat
deriving DecidableEq

/-- A freshly constructed provider over an empty database file. -/
def emptyStore : StoreState :=
  { initialized := false, sessions := [], events := [], nextEventId := 1 }

/-- The spec's error taxonomy for the errors the source code throws
(`Session not found: ...` and the session-insert uniqueness failure). -/
inductive StoreError where
  | sessionNotFound (id : String)
  | duplicateSession (id : String)
deriving DecidableEq

/-- The `SessionMetadata` object shape used as `createSession` input:
`createdAt` / `updatedAt` may be omitted (the code applies
`|| Date.now()`), `name` and `tags` are optional fields. -/
structure SessionInput where
  id : String
  createdAt : Option Nat := none
  updatedAt : Option Nat := none
  name : Option String := none
  workingDirectory : String
  tags : Option (List String) := none
deriving DecidableEq

/-- The fully-populated `SessionMetadata` object shape the provider
returns. -/
structure SessionMetadata where
  id : String
  createdAt : Nat
  updatedAt : Nat
  name : Option String
  workingDirectory : String
  tags : Option (List String)
deriving DecidableEq

/-- The `Partial<Omit<SessionMetadata, 'id'>>` argument of
`updateSessionMetadata`: `none` means the field is absent. -/
structure SessionPatch where
  createdAt : Option Nat := none
  updatedAt : Option Nat := none
  name : Option String := none
  workingDirectory : Option String := none
  tags : Option (List String) := none
deriving DecidableEq

/-- Model of `v || Date.now()` on an optional number: JS treats both
`undefined` and `0` as falsy. -/
def jsNumOr (v : Option Nat) (now : Nat) : Nat :=
  match v with
  | some t => if t = 0 then now else t
  | none => now

/-- Model of `s || null` on an optional string: `undefined` and the empty
string both store NULL. -/
def jsStringOrNull (v : Option String) : Option String :=
  match v with
  | some s => if s = "" then none else some s
  | none => none

/-- Tags are persisted as `JSON.stringify` of the string array. -/
def stringifyTags (l : List String) : String :=
  jsonStringify (.arr (l.map .str))

/-- Inverse reading of a stored tags column; rows written through this
API always hold `stringifyTags l`, on which this is exact.  (The JS code
casts the parse result unchecked; a malformed tags column would make it
throw or return a non-array, neither of which is reachable through the
provider's own writes.) -/
def decodeTags (t : String) : Option (List String) :=
  match jsonParse t with
  | some (.arr xs) => strList xs
  | _ => none
where
  strList : List JsVal → Option (List String)
    | [] => some []
    | .str s :: xs => (strList xs).map (fun l => s :: l)
    | _ => none

/-- Model of `initialize()`: on the first call the schema is created with
`CREATE TABLE IF NOT EXISTS` (a no-op on the relational content) and the
`initialized` flag is set; later calls do nothing. -/
def initializeStore (s : StoreState) : StoreState :=
  if s.initialized then s else { s with initialized := true }

/-- Model of the private `ensureInitialized()` lazy-init guard. -/
def ensureInitialized (s : StoreState) : StoreState :=
  if s.initialized then s else initializeStore s

/-- The `SELECT ... FROM sessions WHERE id = ?` lookup. -/
def findSession (s : StoreState) (sessionId : String) : Option SessionRow :=
  s.sessions.find? (fun r => r.id == sessionId)

/-- Model of `createSession`: defaults `createdAt` / `updatedAt`, encodes
tags, inserts the row (failing on a primary-key collision), and returns
the merged `sessionData` object. -/
def createSession (now : Nat) (metadata : SessionInput) (s0 : StoreState) :
    Except StoreError SessionMetadata × StoreState :=
  let s := ensureInitialized s0
  let createdAt := jsNumOr metadata.createdAt now
  let updatedAt := jsNumOr metadata.updatedAt now
  let tagsJson := metadata.tags.map stringifyTags
  if (findSession s metadata.id).isSome then
    (.error (.duplicateSession metadata.id), s)
  else
    (.ok { id := metadata.id, createdAt := createdAt, updatedAt := updatedAt,
           name := metadata.name, workingDirectory := metadata.workingDirectory,
           tags := metadata.tags },
     { s with sessions := s.sessions ++
        [{ id := metadata.id, createdAt := createdAt, updatedAt := updatedAt,
           name := jsStringOrNull metadata.name,
           workingDirectory := metadata.workingDirectory, tags := tagsJson }] })

/-- The row-to-object conversion performed by `getSessionMetadata`
(`row.name || undefined`, `row.tags ? JSON.parse(row.tags) : undefined`). -/
def rowToMetadata (row : SessionRow) : SessionMetadata :=
  { id := row.id, createdAt := row.createdAt, updatedAt := row.updatedAt,
    name := match row.name with
      | some s => if s = "" then none else some s
      | none => none,
    workingDirectory := row.workingDirectory,
    tags := match row.tags with
      | some t => if t = "" then none else decodeTags t
      | none => none }

/-- Model of `getSessionMetadata`: `none` is the normal absence marker. -/
def getSessionMetadata (sessionId : String) (s0 : StoreState) :
    Option SessionMetadata × StoreState :=
  let s := ensureInitialized s0
  ((findSession s sessionId).map rowToMetadata, s)

/-- The UPDATE applied to the stored row by `updateSessionMetadata`: only
the columns whose patch field is present get a SET clause, plus
`updatedAt` which is always set. -/
def applyPatchRow (now : Nat) (patch : SessionPatch) (row : SessionRow) : SessionRow :=
  { row with
    name := match patch.name with
      | some n => if n = "" then none else some n
      | none => row.name,
    workingDirectory := patch.workingDirectory.getD row.workingDirectory,
    tags := match patch.tags with
      | some t => some (stringifyTags t)
      | none => row.tags,
    updatedAt := now }

/-- Model of `updateSessionMetadata`: reads the current session (failing
when absent), returns the spread-merged view `{...session, ...metadata,
updatedAt: now}`, and updates only the supplied columns in the table. -/
def updateSessionMetadata (now : Nat) (sessionId : String) (patch : SessionPatch)
    (s0 : StoreState) : Except StoreError SessionMetadata × StoreState :=
  let s := ensureInitialized s0
  match (getSessionMetadata sessionId s).1 with
  | none => (.error (.sessionNotFound sessionId), s)
  | some session =>
    (.ok { id := session.id,
           createdAt := patch.createdAt.getD session.createdAt,
           updatedAt := now,
           name := match patch.name with
             | some n => some n
             | none => session.name,
           workingDirectory := patch.workingDirectory.getD session.workingDirectory,
           tags := match patch.tags with
             | some t => some t
             | none => session.tags },
     { s with sessions := s.sessions.map (fun r =>
        if r.id == sessionId then applyPatchRow now patch r else r) })

/-- Model of `deleteSession`: deletes the session's events, then the
session row; returns whether a session row was actually removed
(`result.changes > 0`). -/
def deleteSession (sessionId : String) (s0 : StoreState) : Bool × StoreState :=
  let s := ensureInitialized s0
  ((findSession s sessionId).isSome,
   { s with
     events := s.events.filter (fun e => !(e.sessionId == sessionId)),
     sessions := s.sessions.filter (fun r => !(r.id == sessionId)) })

/-- Model of `saveEvent`: checks the session exists (failing with the
`Session not found` error otherwise), inserts the event row with the
current timestamp and serialized payload, and bumps the parent session's
`updatedAt` to the same timestamp. -/
def saveEvent (now : Nat) (sessionId : String) (event : JsVal) (s0 : StoreState) :
    Except StoreError Unit × StoreState :=
  let s := ensureInitialized s0
  if (findSession s sessionId).isSome then
    (.ok (),
     { s with
       events := s.events ++
         [{ id := s.nextEventId, sessionId := sessionId, timestamp := now,
            eventData := jsonStringify event }],
       nextEventId := s.nextEventId + 1,
       sessions := s.sessions.map (fun r =>
         if r.id == sessionId then { r with updatedAt := now } else r) })
  else (.error (.sessionNotFound sessionId), s)

/-- The `ORDER BY timestamp ASC, id ASC` comparison. -/
def eventLE (a b : EventRow) : Bool :=
  decide (a.timestamp < b.timestamp) ||
    (decide (a.timestamp = b.timestamp) && decide (a.id ≤ b.id))

/-- The rows returned by the `SELECT ... WHERE sessionId = ? ORDER BY
timestamp ASC, id ASC` query. -/
def sessionEventsOrdered (s : StoreState) (sessionId : String) : List EventRow :=
  (s.events.filter (fun e => e.sessionId == sessionId)).mergeSort eventLE

/-- The synthetic placeholder object substituted for an unparseable
record. -/
def placeholderEvent (now : Nat) : JsVal :=
  .obj [("type", .str "system"), ("message", .str "Failed to parse event data"),
        ("timestamp", .num (now : Int))]

/-- Per-row decoding: `JSON.parse`, falling back to the placeholder when
parsing throws. -/
def decodeEventData (now : Nat) (eventData : String) : JsVal :=
  match jsonParse eventData with
  | some v => v
  | none => placeholderEvent now

/-- Model of `getSessionEvents`: checks the session exists (failing with
the `Session not found` error otherwise), then reads the ordered rows and
decodes each payload independently. -/
def getSessionEvents (now : Nat) (sessionId : String) (s0 : StoreState) :
    Except StoreError (List JsVal) × StoreState :=
  let s := ensureInitialized s0
  if (findSession s sessionId).isSome then
    (.ok ((sessionEventsOrdered s sessionId).map (fun r => decodeEventData now r.eventData)), s)
  else (.error (.sessionNotFound sessionId), s)

instance {ε α : Type} [DecidableEq ε] [DecidableEq α] : DecidableEq (Except ε α) := fun x y =>
  match x, y with
  | .ok a, .ok b =>
    if h : a = b then .isTrue (by rw [h]) else .isFalse (fun hh => h (Except.ok.inj hh))
  | .error a, .error b =>
    if h : a = b then .isTrue (by rw [h]) else .isFalse (fun hh => h (Except.error.inj hh))
  | .ok _, .error _ => .isFalse (fun hh => Except.noConfusion hh)
  | .error _, .ok _ => .isFalse (fun hh => Except.noConfusion hh)

theorem ensureInitialized_eq (s : StoreState) :
    ensureInitialized s = { s with initialized := true } := by
  unfold ensureInitialized initializeStore
  by_cases h : s.initialized
  · cases s
    simp_all
  · simp [h]

theorem findSession_ensure (s : StoreState) (sid : String) :
    findSession (ensureInitialized s) sid = findSession s sid := by
  rw [ensureInitialized_eq]
  rfl

theorem find?_filter_ne (l : List SessionRow) (sid : String) :
    (l.filter (fun r => !(r.id == sid))).find? (fun r => r.id == sid) = none := by
  rw [List.find?_eq_none]
  intro x hx
  simp only [List.mem_filter, Bool.not_eq_eq_eq_not, Bool.not_true] at hx
  simp [hx.2]

/-- Claim C1: `saveEvent` against a non-existent `sessionId` fails with
the session-not-found error and creates no event row (the store neither
orphans an event nor auto-creates a session). -/
theorem saveEvent_missing_session (now : Nat) (sid : String) (ev : JsVal) (s : StoreState)
    (h : findSession s sid = none) :
    (saveEvent now sid ev s).1 = .error (.sessionNotFound sid) ∧
    (saveEvent now sid ev s).2.events = s.events := by
  have h2 : findSession { s with initialized := true } sid = none := h
  constructor <;> simp [saveEvent, h2, ensureInitialized_eq]

/-- Witness for C1 at a concrete input: the empty store has no session
`"s1"`, and saving there errors and stores nothing. -/
theorem saveEvent_missing_session_witness :
    findSession emptyStore "s1" = none ∧
    (saveEvent 5 "s1" .null emptyStore).1 = .error (.sessionNotFound "s1") ∧
    (saveEvent 5 "s1" .null emptyStore).2.events = emptyStore.events :=
  ⟨by decide, (saveEvent_missing_session 5 "s1" .null emptyStore (by decide)).1,
    (saveEvent_missing_session 5 "s1" .null emptyStore (by decide)).2⟩

/-- Concrete one-session, one-event store used by witnesses. -/
def wit2State : StoreState :=
  { initialized := true,
    sessions := [{ id := "s1", createdAt := 1, updatedAt := 2, name := none,
                   workingDirectory := "/tmp", tags := none }],
    events := [{ id := 1, sessionId := "s1", timestamp := 2, eventData := "null" }],
    nextEventId := 2 }

/-- Claim C2: after a successful `deleteSession X`, `getSessionEvents X`
fails with the session-not-found error and no event row with
`sessionId = X` remains in storage: the session and its events disappear
together. -/
theorem deleteSession_cascade (now : Nat) (sid : String) (s : StoreState)
    (h : (deleteSession sid s).1 = true) :
    (getSessionEvents now sid (deleteSession sid s).2).1 =
      .error (.sessionNotFound sid) ∧
    ∀ e ∈ (deleteSession sid s).2.events, e.sessionId ≠ sid := by
  constructor
  · have hfind : findSession (ensureInitialized (deleteSession sid s).2) sid = none := by
      rw [findSession_ensure]
      simp only [deleteSession, findSession]
      exact find?_filter_ne _ sid
    simp [getSessionEvents, hfind]
  · intro e he
    simp only [deleteSession, List.mem_filter, Bool.not_eq_eq_eq_not, Bool.not_true] at he
    simpa using he.2

/-- Witness for C2 at a concrete input: a one-session store with one
event; deleting the session succeeds, reading its events then fails and
no event row remains. -/
theorem deleteSession_cascade_witness :
    (deleteSession "s1" wit2State).1 = true ∧
    (getSessionEvents 9 "s1" (deleteSession "s1" wit2State).2).1 =
      .error (.sessionNotFound "s1") ∧
    ∀ e ∈ (deleteSession "s1" wit2State).2.events, e.sessionId ≠ "s1" :=
  ⟨by decide, (deleteSession_cascade 9 "s1" wit2State (by decide)).1,
    (deleteSession_cascade 9 "s1" wit2State (by decide)).2⟩

theorem initializeStore_eq (s : StoreState) :
    initializeStore s = { s with initialized := true } := by
  unfold initializeStore
  by_cases h : s.initialized
  · cases s
    simp_all
  · simp [h]

theorem ensureInitialized_initializeStore (s : StoreState) :
    ensureInitialized (initializeStore s) = ensureInitialized s := by
  rw [ensureInitialized_eq, ensureInitialized_eq, initializeStore_eq]

/-- Claim C7: initialization is idempotent — a second `initialize` call
produces no error and leaves the state exactly as after the first — and
every operation transparently initializes first (lazy-init contract), so
running any operation after an explicit `initialize` equals running it
directly. -/
theorem initialize_idempotent (s : StoreState) :
    initializeStore (initializeStore s) = initializeStore s ∧
    (∀ now metadata,
      createSession now metadata (initializeStore s) = createSession now metadata s) ∧
    (∀ now sid patch,
      updateSessionMetadata now sid patch (initializeStore s) =
        updateSessionMetadata now sid patch s) ∧
    (∀ sid, getSessionMetadata sid (initializeStore s) = getSessionMetadata sid s) ∧
    (∀ sid, deleteSession sid (initializeStore s) = deleteSession sid s) ∧
    (∀ now sid ev, saveEvent now sid ev (initializeStore s) = saveEvent now sid ev s) ∧
    (∀ now sid, getSessionEvents now sid (initializeStore s) = getSessionEvents now sid s) := by
  refine ⟨?_, fun now metadata => ?_, fun now sid patch => ?_, fun sid => ?_,
    fun sid => ?_, fun now sid ev => ?_, fun now sid => ?_⟩
  · simp only [initializeStore_eq]
  · unfold createSession
    rw [ensureInitialized_initializeStore]
  · unfold updateSessionMetadata
    rw [ensureInitialized_initializeStore]
  · unfold getSessionMetadata
    rw [ensureInitialized_initializeStore]
  · unfold deleteSession
    rw [ensureInitialized_initializeStore]
  · unfold saveEvent
    rw [ensureInitialized_initializeStore]
  · unfold getSessionEvents
    rw [ensureInitialized_initializeStore]

/-- Claim C5: `saveEvent` behaves as one logical unit — either it
succeeds, appending exactly one event row stamped with the current
timestamp and bumping the parent session's `updatedAt` to that same
timestamp, or it fails on a missing session with both tables untouched;
no state with only one of the two writes applied is ever exposed. -/
theorem saveEvent_atomic (now : Nat) (sid : String) (ev : JsVal) (s : StoreState) :
    ((saveEvent now sid ev s).1 = .ok () ∧
      (saveEvent now sid ev s).2.events = s.events ++
        [{ id := s.nextEventId, sessionId := sid, timestamp := now,
           eventData := jsonStringify ev }] ∧
      (∀ r ∈ (saveEvent now sid ev s).2.sessions, r.id = sid → r.updatedAt = now)) ∨
    ((saveEvent now sid ev s).1 = .error (.sessionNotFound sid) ∧
      (saveEvent now sid ev s).2.events = s.events ∧
      (saveEvent now sid ev s).2.sessions = s.sessions) := by
  have hfind : findSession { s with initialized := true } sid = findSession s sid := rfl
  by_cases hex : (findSession s sid).isSome = true
  · left
    refine ⟨?_, ?_, ?_⟩
    · simp [saveEvent, ensureInitialized_eq, hfind, hex]
    · simp [saveEvent, ensureInitialized_eq, hfind, hex]
    · intro r hr hrid
      simp only [saveEvent, ensureInitialized_eq, hfind, hex, if_pos, List.mem_map] at hr
      obtain ⟨a, ha, rfl⟩ := hr
      by_cases hcase : a.id == sid
      · simp [hcase]
      · simp only [hcase, Bool.false_eq_true, if_false] at hrid ⊢
        exact absurd (by simp [hrid]) hcase
  · right
    have hex2 : (findSession s sid).isSome = false := by
      cases h2 : (findSession s sid).isSome
      · rfl
      · exact absurd h2 hex
    refine ⟨?_, ?_, ?_⟩ <;> simp [saveEvent, ensureInitialized_eq, hfind, hex2]

theorem find?_map_if (l : List SessionRow) (sid : String) (g : SessionRow → SessionRow)
    (hg : ∀ r, (g r).id = r.id) :
    (l.map (fun r => if r.id == sid then g r else r)).find? (fun r => r.id == sid) =
      (l.find? (fun r => r.id == sid)).map g := by
  induction l with
  | nil => rfl
  | cons x xs ih =>
    by_cases hx : (x.id == sid) = true
    · have hgx : ((g x).id == sid) = true := by rw [hg]; exact hx
      rw [List.map_cons, if_pos hx, List.find?_cons, List.find?_cons]
      simp only [hgx, hx]
      rfl
    · have hx2 : (x.id == sid) = false := by simpa using hx
      rw [List.map_cons, if_neg hx, List.find?_cons, List.find?_cons]
      simp only [hx2]
      exact ih

/-- Claim C9: `createSession` fails with the duplicate-session error
whenever the caller-supplied id already exists (and inserts nothing),
and on success returns the fully-populated record with
`createdAt` / `updatedAt` defaulted to the current time when omitted. -/
theorem createSession_spec (now : Nat) (metadata : SessionInput) (s : StoreState) :
    ((findSession s metadata.id).isSome = true →
      (createSession now metadata s).1 = .error (.duplicateSession metadata.id) ∧
      (createSession now metadata s).2.sessions = s.sessions) ∧
    (findSession s metadata.id = none → metadata.createdAt = none →
      metadata.updatedAt = none →
      (createSession now metadata s).1 = .ok
        { id := metadata.id, createdAt := now, updatedAt := now,
          name := metadata.name, workingDirectory := metadata.workingDirectory,
          tags := metadata.tags }) := by
  have hfind : findSession { s with initialized := true } metadata.id =
      findSession s metadata.id := rfl
  constructor
  · intro hex
    constructor <;> simp [createSession, ensureInitialized_eq, hfind, hex]
  · intro hfresh hc hu
    simp [createSession, ensureInitialized_eq, hfind, hfresh, hc, hu, jsNumOr]

/-- Witness for C9 at concrete inputs: creating `"s1"` twice — the second
call fails with the duplicate error; the first call, with `createdAt` and
`updatedAt` omitted, returns them defaulted to the call time. -/
theorem createSession_spec_witness :
    (createSession 7 { id := "s1", workingDirectory := "/w" } emptyStore).1 =
      .ok { id := "s1", createdAt := 7, updatedAt := 7, name := none,
            workingDirectory := "/w", tags := none } ∧
    (createSession 8 { id := "s1", workingDirectory := "/w" }
        (createSession 7 { id := "s1", workingDirectory := "/w" } emptyStore).2).1 =
      .error (.duplicateSession "s1") :=
  ⟨(createSession_spec 7 { id := "s1", workingDirectory := "/w" } emptyStore).2
      (by decide) rfl rfl,
    ((createSession_spec 8 { id := "s1", workingDirectory := "/w" }
        (createSession 7 { id := "s1", workingDirectory := "/w" } emptyStore).2).1
      (by decide)).1⟩

theorem applyPatchRow_id (now : Nat) (patch : SessionPatch) (r : SessionRow) :
    (applyPatchRow now patch r).id = r.id := rfl

/-- Claim C6: a partial update supplying only `name` succeeds, applies
the new name, and advances the stored `updatedAt` to the current time,
while the stored `workingDirectory`, `tags` and `createdAt` stay exactly
as they were — fields absent from the patch are never written. -/
theorem updateSessionMetadata_sparse (now : Nat) (sid n : String) (s : StoreState)
    (row : SessionRow) (hrow : findSession s sid = some row) (hn : n ≠ "") :
    (∃ m, (updateSessionMetadata now sid { name := some n } s).1 = .ok m) ∧
    findSession (updateSessionMetadata now sid { name := some n } s).2 sid =
      some { row with name := some n, updatedAt := now } := by
  have hrow2 : List.find? (fun r => r.id == sid) s.sessions = some row := hrow
  have hg := applyPatchRow_id now { name := some n }
  constructor
  · simp only [updateSessionMetadata, getSessionMetadata, ensureInitialized_eq, findSession,
      hrow2, Option.map_some']
    exact ⟨_, rfl⟩
  · simp only [updateSessionMetadata, getSessionMetadata, ensureInitialized_eq, findSession,
      hrow2, Option.map_some']
    rw [find?_map_if _ _ _ hg, hrow2]
    simp [applyPatchRow, hn]

/-- Witness for C6 at a concrete input: renaming session `"s1"` to
`"X"` keeps its working directory, tags and creation time and bumps
`updatedAt` to the call time. -/
theorem updateSessionMetadata_sparse_witness :
    findSession wit2State "s1" =
      some { id := "s1", createdAt := 1, updatedAt := 2, name := none,
             workingDirectory := "/tmp", tags := none } ∧
    findSession (updateSessionMetadata 9 "s1" { name := some "X" } wit2State).2 "s1" =
      some { id := "s1", createdAt := 1, updatedAt := 9, name := some "X",
             workingDirectory := "/tmp", tags := none } :=
  ⟨by decide,
    (updateSessionMetadata_sparse 9 "s1" "X" wit2State
      { id := "s1", createdAt := 1, updatedAt := 2, name := none,
        workingDirectory := "/tmp", tags := none } (by decide) (by decide)).2⟩

/-- Claim C10: an empty-string `name` is not preserved round-trip — both
`createSession` with `name = ""` and `updateSessionMetadata` to
`name = ""` store a NULL name column, and `getSessionMetadata` then
returns the record with `name` absent, even though `createSession`'s own
return value still carries the empty string. -/
theorem emptyName_not_roundTripped (now : Nat) (s : StoreState) (metadata : SessionInput)
    (hname : metadata.name = some "") (hfresh : findSession s metadata.id = none) :
    (∃ m, (createSession now metadata s).1 = .ok m ∧ m.name = some "") ∧
    (∃ row, findSession (createSession now metadata s).2 metadata.id = some row ∧
      row.name = none) ∧
    ((getSessionMetadata metadata.id (createSession now metadata s).2).1.map
      (fun m => m.name)) = some none ∧
    (∀ sid row0, findSession s sid = some row0 →
      (∃ row, findSession (updateSessionMetadata now sid { name := some "" } s).2 sid =
          some row ∧ row.name = none) ∧
      ((getSessionMetadata sid (updateSessionMetadata now sid { name := some "" } s).2).1.map
        (fun m => m.name)) = some none) := by
  have hfresh2 : List.find? (fun r => r.id == metadata.id) s.sessions = none := hfresh
  have hrowfound : findSession (createSession now metadata s).2 metadata.id =
      some { id := metadata.id, createdAt := jsNumOr metadata.createdAt now,
             updatedAt := jsNumOr metadata.updatedAt now, name := none,
             workingDirectory := metadata.workingDirectory,
             tags := metadata.tags.map stringifyTags } := by
    simp only [createSession, ensureInitialized_eq, findSession, hfresh2, Option.isSome_none,
      Bool.false_eq_true, if_false, hname]
    rw [List.find?_append, hfresh2]
    simp [jsStringOrNull]
  refine ⟨?_, ?_, ?_, ?_⟩
  · have h1 : (createSession now metadata s).1 = .ok
        { id := metadata.id, createdAt := jsNumOr metadata.createdAt now,
          updatedAt := jsNumOr metadata.updatedAt now, name := metadata.name,
          workingDirectory := metadata.workingDirectory, tags := metadata.tags } := by
      simp [createSession, ensureInitialized_eq, findSession, hfresh2]
    exact ⟨_, h1, hname⟩
  · exact ⟨_, hrowfound, rfl⟩
  · have h2 : findSession { (createSession now metadata s).2 with initialized := true }
        metadata.id = findSession (createSession now metadata s).2 metadata.id := rfl
    simp only [getSessionMetadata, ensureInitialized_eq, h2, hrowfound, Option.map_some']
    simp [rowToMetadata]
  · intro sid row0 hrow0
    have hrow2 : List.find? (fun r => r.id == sid) s.sessions = some row0 := hrow0
    have hg := applyPatchRow_id now { name := some "" }
    have hupd : findSession (updateSessionMetadata now sid { name := some "" } s).2 sid =
        some (applyPatchRow now { name := some "" } row0) := by
      simp only [updateSessionMetadata, getSessionMetadata, ensureInitialized_eq, findSession,
        hrow2, Option.map_some']
      rw [find?_map_if _ _ _ hg, hrow2]
      rfl
    constructor
    · exact ⟨_, hupd, by simp [applyPatchRow]⟩
    · have h2 : findSession
          { (updateSessionMetadata now sid { name := some "" } s).2 with initialized := true }
          sid = findSession (updateSessionMetadata now sid { name := some "" } s).2 sid := rfl
      simp only [getSessionMetadata, ensureInitialized_eq, h2, hupd, Option.map_some']
      simp [rowToMetadata, applyPatchRow]

/-- Concrete input with an empty-string name used by the C10 witness. -/
def wit10Input : SessionInput :=
  { id := "s2", workingDirectory := "/w", name := some "" }

/-- Witness for C10 at concrete inputs: creating `"s2"` with an empty
name stores NULL and reads back absent; updating `"s1"` to an empty name
stores NULL as well. -/
theorem emptyName_not_roundTripped_witness :
    ((getSessionMetadata "s2" (createSession 5 wit10Input wit2State).2).1.map
      (fun m => m.name)) = some none ∧
    (∃ row, findSession (updateSessionMetadata 5 "s1" { name := some "" } wit2State).2 "s1" =
      some row ∧ row.name = none) :=
  ⟨(emptyName_not_roundTripped 5 wit2State wit10Input rfl (by decide)).2.2.1,
    ((emptyName_not_roundTripped 5 wit2State wit10Input rfl (by decide)).2.2.2 "s1"
      { id := "s1", createdAt := 1, updatedAt := 2, name := none,
        workingDirectory := "/tmp", tags := none } (by decide)).1⟩

theorem eventLE_iff (a b : EventRow) :
    eventLE a b = true ↔
      (a.timestamp < b.timestamp ∨ (a.timestamp = b.timestamp ∧ a.id ≤ b.id)) := by
  simp [eventLE]

theorem eventLE_trans (a b c : EventRow) (h1 : eventLE a b = true) (h2 : eventLE b c = true) :
    eventLE a c = true := by
  simp [eventLE] at h1 h2 ⊢
  omega

theorem eventLE_total (a b : EventRow) : (eventLE a b || eventLE b a) = true := by
  simp [eventLE]
  omega

/-- Claim C3: for an existing session, reading events yields the stored
rows sorted by `(timestamp, id)` ascending — a permutation of the
session's rows in insertion order — and when the timestamps are monotone
in insertion order (the auto-increment ids always are) the result is
exactly the insertion order. -/
theorem getSessionEvents_ordering (now : Nat) (sid : String) (s : StoreState)
    (hex : (findSession s sid).isSome = true) :
    ∃ rows, (getSessionEvents now sid s).1 =
        .ok (rows.map (fun r => decodeEventData now r.eventData)) ∧
      rows.Perm (s.events.filter (fun e => e.sessionId == sid)) ∧
      rows.Pairwise (fun a b => a.timestamp < b.timestamp ∨
        (a.timestamp = b.timestamp ∧ a.id ≤ b.id)) ∧
      ((s.events.filter (fun e => e.sessionId == sid)).Pairwise
          (fun a b => a.timestamp ≤ b.timestamp) →
        (s.events.filter (fun e => e.sessionId == sid)).Pairwise
          (fun a b => a.id < b.id) →
        rows = s.events.filter (fun e => e.sessionId == sid)) := by
  have hex2 : (findSession { s with initialized := true } sid).isSome = true := hex
  refine ⟨(s.events.filter (fun e => e.sessionId == sid)).mergeSort eventLE, ?_, ?_, ?_, ?_⟩
  · simp [getSessionEvents, ensureInitialized_eq, hex2, sessionEventsOrdered]
  · exact List.mergeSort_perm _ eventLE
  · have hs := List.sorted_mergeSort eventLE_trans eventLE_total
      (s.events.filter (fun e => e.sessionId == sid))
    exact hs.imp (fun h => (eventLE_iff _ _).mp h)
  · intro hts hid
    apply List.mergeSort_of_sorted
    exact (hts.and hid).imp (fun h => by
      rw [eventLE_iff]
      omega)

/-- Concrete store with two events sharing one timestamp, used by the C3
witness. -/
def wit3State : StoreState :=
  { initialized := true,
    sessions := [{ id := "s1", createdAt := 1, updatedAt := 5, name := none,
                   workingDirectory := "/tmp", tags := none }],
    events := [{ id := 1, sessionId := "s1", timestamp := 5, eventData := "\"a\"" },
               { id := 2, sessionId := "s1", timestamp := 5, eventData := "\"b\"" }],
    nextEventId := 3 }

/-- Witness for C3 at a concrete input: two events with identical
timestamps come back in insertion order (id tie-break). -/
theorem getSessionEvents_ordering_witness :
    (getSessionEvents 9 "s1" wit3State).1 = .ok [.str "a", .str "b"] := by
  obtain ⟨rows, h1, h2, h3, h4⟩ := getSessionEvents_ordering 9 "s1" wit3State (by decide)
  rw [h4 (by decide) (by decide)] at h1
  rw [h1]
  rfl

/-- Claim C4: when an existing session's stored log contains exactly one
record whose encoded payload does not parse, `getSessionEvents` still
succeeds: every other event decodes normally, and the corrupt slot is
replaced by the synthetic system-notice placeholder carrying a diagnostic
message and the current timestamp. -/
theorem getSessionEvents_corruption (now : Nat) (sid : String) (s : StoreState)
    (pre post : List EventRow) (bad : EventRow)
    (hex : (findSession s sid).isSome = true)
    (hsplit : sessionEventsOrdered s sid = pre ++ bad :: post)
    (hpre : ∀ e ∈ pre, (jsonParse e.eventData).isSome = true)
    (hpost : ∀ e ∈ post, (jsonParse e.eventData).isSome = true)
    (hbad : jsonParse bad.eventData = none) :
    (getSessionEvents now sid s).1 =
      .ok (pre.map (fun r => decodeEventData now r.eventData) ++
        placeholderEvent now :: post.map (fun r => decodeEventData now r.eventData)) ∧
    ∀ e ∈ pre ++ post, jsonParse e.eventData = some (decodeEventData now e.eventData) := by
  have hex2 : (findSession { s with initialized := true } sid).isSome = true := hex
  have hsplit2 : sessionEventsOrdered { s with initialized := true } sid =
      pre ++ bad :: post := hsplit
  constructor
  · simp only [getSessionEvents, ensureInitialized_eq, hex2, if_pos, hsplit2, List.map_append,
      List.map_cons]
    simp [decodeEventData, hbad]
  · intro e he
    have hsome : (jsonParse e.eventData).isSome = true := by
      rcases List.mem_append.mp he with h | h
      · exact hpre e h
      · exact hpost e h
    obtain ⟨v, hv⟩ := Option.isSome_iff_exists.mp hsome
    simp [decodeEventData, hv]

/-- Concrete store whose middle event holds unparseable text, used by the
C4 witness. -/
def wit4State : StoreState :=
  { initialized := true,
    sessions := [{ id := "s1", createdAt := 1, updatedAt := 3, name := none,
                   workingDirectory := "/tmp", tags := none }],
    events := [{ id := 1, sessionId := "s1", timestamp := 1, eventData := "\"a\"" },
               { id := 2, sessionId := "s1", timestamp := 2, eventData := "\x7b" },
               { id := 3, sessionId := "s1", timestamp := 3, eventData := "\"b\"" }],
    nextEventId := 4 }

/-- Witness for C4 at a concrete input: of three stored events the middle
one is corrupt; the read succeeds with the placeholder in the middle
slot. -/
theorem getSessionEvents_corruption_witness :
    (getSessionEvents 9 "s1" wit4State).1 =
      .ok [.str "a", placeholderEvent 9, .str "b"] := by
  have hsplit : sessionEventsOrdered wit4State "s1" =
      [{ id := 1, sessionId := "s1", timestamp := 1, eventData := "\"a\"" }] ++
        { id := 2, sessionId := "s1", timestamp := 2, eventData := "\x7b" } ::
        [{ id := 3, sessionId := "s1", timestamp := 3, eventData := "\"b\"" }] := by
    unfold sessionEventsOrdered
    rw [List.mergeSort_of_sorted (by decide)]
    rfl
  have h := (getSessionEvents_corruption 9 "s1" wit4State
    [{ id := 1, sessionId := "s1", timestamp := 1, eventData := "\"a\"" }]
    [{ id := 3, sessionId := "s1", timestamp := 3, eventData := "\"b\"" }]
    { id := 2, sessionId := "s1", timestamp := 2, eventData := "\x7b" }
    (by decide) hsplit (by decide) (by decide) (by decide)).1
  rw [h]
  rfl

/-- Strict `(timestamp, id)` ordering; on rows with distinct ids it is
the strict version of `eventLE`. -/
def eventLTP (a b : EventRow) : Prop :=
  a.timestamp < b.timestamp ∨ (a.timestamp = b.timestamp ∧ a.id < b.id)

instance : IsAntisymm EventRow eventLTP :=
  ⟨fun a b h1 h2 => False.elim (by unfold eventLTP at h1 h2; omega)⟩

theorem pairwise_lt_of_sorted_nodup (l : List EventRow)
    (hsort : l.Pairwise (fun a b => eventLE a b = true))
    (hnd : (l.map (fun e => e.id)).Nodup) : l.Pairwise eventLTP := by
  have hne : l.Pairwise (fun a b => a.id ≠ b.id) := List.pairwise_map.mp hnd
  exact (hsort.and hne).imp (fun h => by
    obtain ⟨h1, h2⟩ := h
    rw [eventLE_iff] at h1
    unfold eventLTP
    omega)

/-- Claim C8: saving a serializable payload to an existing session and
reading the session back yields a value deep-equal to the payload in the
corresponding (final) slot — round-trip fidelity through the textual
encoding.  The hypotheses are the reachable-state invariants: stored
timestamps do not exceed the current time and the auto-increment counter
exceeds every stored event id. -/
theorem saveEvent_roundTrip (now now2 : Nat) (sid : String) (p : JsVal) (s : StoreState)
    (hex : (findSession s sid).isSome = true)
    (hts : ∀ e ∈ s.events, e.sessionId = sid → e.timestamp ≤ now)
    (hid : ∀ e ∈ s.events, e.id < s.nextEventId)
    (hnodup : (s.events.map (fun e => e.id)).Nodup) :
    ∃ l, (getSessionEvents now2 sid (saveEvent now sid p s).2).1 = .ok (l ++ [p]) := by
  have hex1 : (findSession { s with initialized := true } sid).isSome = true := hex
  have hev : (saveEvent now sid p s).2.events = s.events ++
      [{ id := s.nextEventId, sessionId := sid, timestamp := now,
         eventData := jsonStringify p }] := by
    simp [saveEvent, ensureInitialized_eq, hex1]
  have hsess : (saveEvent now sid p s).2.sessions =
      s.sessions.map (fun r => if r.id == sid then { r with updatedAt := now } else r) := by
    simp [saveEvent, ensureInitialized_eq, hex1]
  have hfind2 : (findSession (saveEvent now sid p s).2 sid).isSome = true := by
    unfold findSession
    rw [hsess,
      find?_map_if s.sessions sid (fun r => { r with updatedAt := now }) (fun r => rfl),
      Option.isSome_map']
    exact hex
  have hfind2i : (findSession
      { (saveEvent now sid p s).2 with initialized := true } sid).isSome = true := hfind2
  set newRow : EventRow :=
    { id := s.nextEventId, sessionId := sid, timestamp := now,
      eventData := jsonStringify p } with hnew
  set F := s.events.filter (fun e => e.sessionId == sid) with hF
  have hfilter : (s.events ++ [newRow]).filter (fun e => e.sessionId == sid) =
      F ++ [newRow] := by
    rw [List.filter_append, hF]
    simp [hnew]
  have hndF : (F.map (fun e => e.id)).Nodup :=
    List.Nodup.sublist ((List.filter_sublist s.events).map (fun e => e.id)) hnodup
  have hidF : ∀ e ∈ F, e.id < s.nextEventId :=
    fun e he => hid e (List.mem_of_mem_filter he)
  have htsF : ∀ e ∈ F, e.timestamp ≤ now := by
    intro e he
    have h1 := List.mem_filter.mp he
    exact hts e h1.1 (by simpa using h1.2)
  have hndAll : ((F ++ [newRow]).map (fun e => e.id)).Nodup := by
    rw [List.map_append, List.nodup_append]
    refine ⟨hndF, List.nodup_singleton _, ?_⟩
    intro a ha hb
    simp only [List.map_cons, List.map_nil, List.mem_singleton, hnew] at hb
    obtain ⟨e, he, rfl⟩ := List.mem_map.mp ha
    exact absurd hb (by have := hidF e he; omega)
  have hsortA := List.sorted_mergeSort eventLE_trans eventLE_total (F ++ [newRow])
  have hltA : ((F ++ [newRow]).mergeSort eventLE).Pairwise eventLTP := by
    apply pairwise_lt_of_sorted_nodup _ hsortA
    exact (((List.mergeSort_perm (F ++ [newRow]) eventLE).map _).nodup_iff).mpr hndAll
  have hltB : (F.mergeSort eventLE ++ [newRow]).Pairwise eventLTP := by
    rw [List.pairwise_append]
    refine ⟨?_, List.pairwise_singleton _ _, ?_⟩
    · apply pairwise_lt_of_sorted_nodup _ (List.sorted_mergeSort eventLE_trans eventLE_total F)
      exact (((List.mergeSort_perm F eventLE).map _).nodup_iff).mpr hndF
    · intro a ha b hb
      rw [List.mem_singleton] at hb
      subst hb
      have haF : a ∈ F := (List.mergeSort_perm F eventLE).mem_iff.mp ha
      have h1 := htsF a haF
      have h2 := hidF a haF
      unfold eventLTP
      simp only [hnew]
      omega
  have hperm : ((F ++ [newRow]).mergeSort eventLE).Perm (F.mergeSort eventLE ++ [newRow]) :=
    (List.mergeSort_perm _ _).trans ((List.mergeSort_perm F eventLE).append_right _).symm
  have hAeq : (F ++ [newRow]).mergeSort eventLE = F.mergeSort eventLE ++ [newRow] :=
    @List.eq_of_perm_of_sorted _ eventLTP _ _ _ hperm hltA hltB
  have hordered : sessionEventsOrdered
      { (saveEvent now sid p s).2 with initialized := true } sid =
      F.mergeSort eventLE ++ [newRow] := by
    unfold sessionEventsOrdered
    rw [show ({ (saveEvent now sid p s).2 with initialized := true } : StoreState).events =
        (saveEvent now sid p s).2.events from rfl, hev, hfilter, hAeq]
  refine ⟨(F.mergeSort eventLE).map (fun r => decodeEventData now2 r.eventData), ?_⟩
  simp only [getSessionEvents, ensureInitialized_eq, hfind2i, if_pos, hordered,
    List.map_append, List.map_cons, List.map_nil]
  simp [hnew, decodeEventData, jsonParse_stringify]

/-- Witness for C8 at a concrete input: saving the string payload
`"hi"` to session `"s1"` and reading back ends with exactly that value. -/
theorem saveEvent_roundTrip_witness :
    ∃ l, (getSessionEvents 20 "s1" (saveEvent 10 "s1" (.str "hi") wit2State).2).1 =
      .ok (l ++ [.str "hi"]) :=
  saveEvent_roundTrip 10 20 "s1" (.str "hi") wit2State (by decide) (by decide)
    (by decide) (by decide)
